import Mathlib

/-!
Verification of the go-fuzz metadata model and the spec-described fuzzing
engine core.  The repository source under scrutiny is
`internal/go-fuzz-types/types.go`, which defines the shared build-time
metadata types (`CoverBlock`, `Literal`, `MetaData`); the runtime engine
(coordinator, corpus, coverage model, crash persistence) is described by the
design spec and the README and is modelled here from those descriptions.
-/

namespace GoFuzz

/-- Embedding of `CoverBlock` from `internal/go-fuzz-types/types.go`:
a statically identified executable region of the target.  Go `int` fields
are embedded as `Int`. -/
structure CoverBlock where
  ID : Int
  File : String
  StartLine : Int
  StartCol : Int
  EndLine : Int
  EndCol : Int
  NumStmt : Int
deriving DecidableEq

/-- Embedding of `Literal` from `internal/go-fuzz-types/types.go`:
a constant extracted from the target source, with its bytes in `Val`
(a Go string is a byte sequence) and a flag telling whether it came from a
string literal. -/
structure Literal where
  Val : String
  IsStr : Bool
deriving DecidableEq

/-- Embedding of `MetaData` from `internal/go-fuzz-types/types.go`:
the aggregate bundle produced by go-fuzz-build and consumed by go-fuzz at
process start. -/
structure MetaData where
  Literals : List Literal
  Blocks : List CoverBlock
  Sonar : List CoverBlock
deriving DecidableEq

/-- Field tuple of a `CoverBlock`, in source order. -/
def CoverBlock.toTuple (b : CoverBlock) :
    Int × String × Int × Int × Int × Int × Int :=
  (b.ID, b.File, b.StartLine, b.StartCol, b.EndLine, b.EndCol, b.NumStmt)

/-- Rebuild a `CoverBlock` from its field tuple. -/
def CoverBlock.ofTuple (t : Int × String × Int × Int × Int × Int × Int) :
    CoverBlock :=
  ⟨t.1, t.2.1, t.2.2.1, t.2.2.2.1, t.2.2.2.2.1, t.2.2.2.2.2.1, t.2.2.2.2.2.2⟩

/-- Field pair of a `Literal`. -/
def Literal.toPair (l : Literal) : String × Bool :=
  (l.Val, l.IsStr)

/-- Rebuild a `Literal` from its field pair. -/
def Literal.ofPair (p : String × Bool) : Literal :=
  ⟨p.1, p.2⟩

/-- Field triple of a `MetaData` bundle. -/
def MetaData.toTriple (m : MetaData) :
    List Literal × List CoverBlock × List CoverBlock :=
  (m.Literals, m.Blocks, m.Sonar)

/-- Rebuild a `MetaData` bundle from its field triple. -/
def MetaData.ofTriple (t : List Literal × List CoverBlock × List CoverBlock) :
    MetaData :=
  ⟨t.1, t.2.1, t.2.2⟩

/-- Metadata store lookup: the literal dictionary. -/
def MetaData.literals (m : MetaData) : List Literal :=
  m.Literals

/-- Metadata store lookup: number of ordinary coverage blocks, which is also
the length of the per-location hit-count array. -/
def MetaData.blockCount (m : MetaData) : Nat :=
  m.Blocks.length

/-- Metadata store lookup: number of sonar (comparison-operand) blocks. -/
def MetaData.sonarBlockCount (m : MetaData) : Nat :=
  m.Sonar.length

/-- Modelled from the spec: the dense-id acceptance condition on one block
pool — every block id is a non-negative integer below the pool length, so it
is a valid direct index into a hit-count array of that length.  The engine
code enforcing this is not in the repository source; only the §3 invariant
describes it. -/
def denseIDs (bs : List CoverBlock) : Bool :=
  bs.all (fun b => decide (0 ≤ b.ID) && decide (b.ID < (bs.length : Int)))

/-- Modelled from the spec: a metadata bundle is accepted when both pools,
ordinary blocks and sonar blocks, have dense ids. -/
def acceptMeta (m : MetaData) : Bool :=
  denseIDs m.Blocks && denseIDs m.Sonar

/-- Modelled from the spec (§4.1): bucket a raw hit count into one of the
classes 0, 1, 2, 4, 8, 16, 32, 64, 128+. -/
def bucket (n : Nat) : Nat :=
  if n = 0 then 0
  else if n = 1 then 1
  else if n < 4 then 2
  else if n < 8 then 4
  else if n < 16 then 8
  else if n < 32 then 16
  else if n < 64 then 32
  else if n < 128 then 64
  else 128

/-- Modelled from the spec (§4.1): turn a raw per-location hit-count snapshot
into a coverage signature, the bucketed vector tagged with each location id.
The real computation is not in the repository source; only its contract is. -/
def snapshotToSignature (raw : List Nat) : List (Nat × Nat) :=
  raw.enum.map (fun p => (p.1, bucket p.2))

/-- Modelled from the spec (§3): the compact hashed form of a signature,
folding each (location id, bucket) pair into a 64-bit accumulator. -/
def sigHash (sig : List (Nat × Nat)) : Nat :=
  sig.foldl (fun h p => (h * 1000003 + p.1 * 257 + p.2) % (2 ^ 64)) 0

/-- Modelled from the spec (§4.1): a signature is novel when some
(location, bucket) pair of it is not yet in the global frontier. -/
def isNovel (sig frontier : List (Nat × Nat)) : Bool :=
  sig.any (fun p => !(frontier.contains p))

/-- Modelled from the spec (§4.1): merging a signature into the frontier
appends exactly the pairs not already present. -/
def mergeFrontier (sig frontier : List (Nat × Nat)) : List (Nat × Nat) :=
  frontier ++ sig.filter (fun p => !(frontier.contains p))

/-- Modelled from the spec (§3): one corpus entry.  Bytes are `List Nat`. -/
structure CorpusEntry where
  id : Nat
  bytes : List Nat
  coverageSignature : List (Nat × Nat)
  depth : Nat
  energy : Nat
  lastImprovedAt : Nat
deriving DecidableEq

/-- Modelled from the spec (§4.5): a crash class signature.  Hang and
out-of-memory get synthesized classes distinct from every ordinary
text-hash class. -/
inductive CrashClass where
  | hang : CrashClass
  | oom : CrashClass
  | text : Nat → CrashClass
deriving DecidableEq

/-- Modelled from the spec (§3): hash of freeform crash text, the fallback
crash-class signal when no structured stack trace exists. -/
def textHash (s : String) : Nat :=
  s.data.foldl (fun h c => (h * 131 + c.toNat) % (2 ^ 64)) 0

/-- Modelled from the spec (§3): one deduplicated crasher record. -/
structure Crasher where
  id : Nat
  bytes : List Nat
  classSignature : CrashClass
  reproducedAt : Nat
  outputText : String
deriving DecidableEq

/-- Modelled from the spec (§4.5): the bounded-time verdict of one target
execution, as returned by the excluded process-launch collaborator. -/
inductive Verdict where
  | clean : Verdict
  | crashed : Verdict
  | hung : Verdict
  | resourceExceeded : Verdict
deriving DecidableEq

/-- Modelled from the spec (§3): the Result record a worker returns. -/
structure Result where
  bytesTested : List Nat
  verdict : Verdict
  rawCoverageSnapshot : List Nat
  timingMs : Nat
  crashText : Option String
deriving DecidableEq

/-- Modelled from the spec (§4.6): the coordinator-owned mutable state —
metadata store, corpus, crash set, coverage frontier, and an id counter. -/
structure EngineState where
  meta : MetaData
  corpus : List CorpusEntry
  crashers : List Crasher
  frontier : List (Nat × Nat)
  nextId : Nat
deriving DecidableEq

/-- Modelled from the spec (§4.4): the base energy constant. -/
def baseEnergy : Nat := 100

/-- Modelled from the spec (§4.4): initial energy of an entry, a base
constant scaled inversely with the entry size. -/
def initialEnergy (size : Nat) : Nat :=
  baseEnergy / (size + 1)

/-- Modelled from the spec (§4.4): when an entry parents a newly accepted
corpus addition, its energy is reset upward and its last-improvement time
recorded; no other field changes. -/
def replenishParent (corpus : List CorpusEntry) (parentId now : Nat) :
    List CorpusEntry :=
  corpus.map (fun e =>
    if e.id = parentId then
      { e with energy := initialEnergy e.bytes.length, lastImprovedAt := now }
    else e)

/-- Modelled from the spec (§4.4): energy decays by one per unproductive
trial of the parent entry; no other field changes. -/
def decayParent (corpus : List CorpusEntry) (parentId : Nat) :
    List CorpusEntry :=
  corpus.map (fun e =>
    if e.id = parentId then { e with energy := e.energy - 1 } else e)

/-- Depth of the parent entry, zero when the work item came from a seed or
literal rather than an existing entry. -/
def parentDepth (corpus : List CorpusEntry) (parentId : Nat) : Nat :=
  match corpus.find? (fun e => e.id == parentId) with
  | some e => e.depth
  | none => 0

/-- Crash text of a result, empty when the worker captured none. -/
def crashTextOf (r : Result) : String :=
  match r.crashText with
  | some t => t
  | none => ""

/-- Modelled from the spec (§4.5): record a crash of class `cls` unless a
crasher of that class already exists — first occurrence wins, the set is
append-only. -/
def recordCrash (s : EngineState) (cls : CrashClass) (bs : List Nat)
    (txt : String) (now : Nat) : EngineState :=
  if s.crashers.any (fun c => c.classSignature == cls) then s
  else
    { s with
      crashers := s.crashers ++ [⟨s.nextId, bs, cls, now, txt⟩],
      nextId := s.nextId + 1 }

/-- Modelled from the spec (§4.5, §4.4): apply one worker Result to the
coordinator state.  Clean and novel appends a corpus entry at depth
parent + 1, replenishes the parent and merges the frontier; clean and not
novel only decays the parent; hang and resource exhaustion record a crash
under their synthesized classes; an ordinary crash still counts toward the
coverage frontier and records a crash keyed by the hash of its text. -/
def stepResult (s : EngineState) (parentId : Nat) (r : Result) (now : Nat) :
    EngineState :=
  match r.verdict with
  | Verdict.clean =>
    if isNovel (snapshotToSignature r.rawCoverageSnapshot) s.frontier then
      { s with
        corpus := replenishParent s.corpus parentId now ++
          [⟨s.nextId, r.bytesTested, snapshotToSignature r.rawCoverageSnapshot,
            parentDepth s.corpus parentId + 1,
            initialEnergy r.bytesTested.length, now⟩],
        frontier := mergeFrontier (snapshotToSignature r.rawCoverageSnapshot)
          s.frontier,
        nextId := s.nextId + 1 }
    else { s with corpus := decayParent s.corpus parentId }
  | Verdict.hung =>
    recordCrash { s with corpus := decayParent s.corpus parentId }
      CrashClass.hang r.bytesTested (crashTextOf r) now
  | Verdict.resourceExceeded =>
    recordCrash { s with corpus := decayParent s.corpus parentId }
      CrashClass.oom r.bytesTested (crashTextOf r) now
  | Verdict.crashed =>
    recordCrash
      { s with
        corpus := decayParent s.corpus parentId,
        frontier := mergeFrontier (snapshotToSignature r.rawCoverageSnapshot)
          s.frontier }
      (CrashClass.text (textHash (crashTextOf r))) r.bytesTested
      (crashTextOf r) now

/-- Modelled from the spec (§4.6, §5): a run is the sequential application
of worker Results — each work record carries the parent entry id, the
Result, and the coordinator clock — to the coordinator state.  Result
application is the sole serialization point, so the sequential fold is the
faithful model of the concurrent system. -/
def run (s : EngineState) (work : List (Nat × Result × Nat)) : EngineState :=
  work.foldl (fun st w => stepResult st w.1 w.2.1 w.2.2) s

/-- Modelled from the spec (§6, §7): the metadata bundle as found at
startup — absent, malformed, or present with its build identifier. -/
inductive MetaBundle where
  | absent : MetaBundle
  | malformed : MetaBundle
  | ok : String → MetaData → MetaBundle

/-- The empty metadata bundle: empty dictionary, no blocks. -/
def emptyMeta : MetaData :=
  ⟨[], [], []⟩

/-- Modelled from the spec (§4.2, §6, §7): startup loading of the metadata
bundle.  Absent or malformed bundles degrade to the empty dictionary and the
engine still starts (`some`); a build-identifier mismatch is a fatal startup
error (`none`). -/
def loadMeta (expectedBuildId : String) (b : MetaBundle) : Option MetaData :=
  match b with
  | MetaBundle.absent => some emptyMeta
  | MetaBundle.malformed => some emptyMeta
  | MetaBundle.ok bid m =>
    if bid = expectedBuildId then some m else none

/-- One file written to the durable work directory: a name and content. -/
structure FileEntry where
  name : String
  content : String
deriving DecidableEq

/-- Hex digit character for a value below 16. -/
def hexDigit (n : Nat) : Char :=
  if n < 10 then Char.ofNat (48 + n) else Char.ofNat (87 + n)

/-- Modelled from the spec (§6) and the README: render one byte of a crasher
input into its quoted form — printable ASCII stays itself, everything else
becomes a backslash-x hex escape. -/
def quoteByte (b : Nat) : List Char :=
  if 32 ≤ b ∧ b ≤ 126 ∧ b ≠ 34 ∧ b ≠ 92 then [Char.ofNat b]
  else [Char.ofNat 92, Char.ofNat 120, hexDigit (b / 16), hexDigit (b % 16)]

/-- Modelled from the spec (§6) and the README: the human-safe quoted
rendering of a crasher input, suitable for pasting into a reproducer. -/
def quoteBytes (bs : List Nat) : String :=
  ⟨[Char.ofNat 34] ++ (bs.map quoteByte).flatten ++ [Char.ofNat 34]⟩

/-- Raw bytes rendered as file content. -/
def bytesToString (bs : List Nat) : String :=
  ⟨bs.map Char.ofNat⟩

/-- Modelled from the spec (§6) and the README lines on workdir/crashers:
persisting one Crasher writes three files sharing one base name — the raw
input bytes with no suffix, the quoted rendering with the .quoted suffix,
and the captured failure text with the .output suffix. -/
def crasherFiles (base : String) (c : Crasher) : List FileEntry :=
  [⟨base, bytesToString c.bytes⟩,
   ⟨base ++ ".quoted", quoteBytes c.bytes⟩,
   ⟨base ++ ".output", c.outputText⟩]

/-- Projection of a corpus entry to its identity payload — id, input bytes,
coverage signature and depth — everything except the scheduler bookkeeping
fields energy and lastImprovedAt. -/
def entryPayload (e : CorpusEntry) : Nat × List Nat × List (Nat × Nat) × Nat :=
  (e.id, e.bytes, e.coverageSignature, e.depth)

/-- Modelled from the spec (§4.1): the signature computation as performed
inside one process instance.  It reads only the snapshot; the engine state
of the instance carries no input to it. -/
def signatureInProcess (_s : EngineState) (raw : List Nat) :
    List (Nat × Nat) :=
  snapshotToSignature raw

/-! Helper lemmas about the engine step and its fold. -/

theorem entryPayload_map_update (c : List CorpusEntry)
    (f : CorpusEntry → CorpusEntry)
    (hf : ∀ e, entryPayload (f e) = entryPayload e) :
    (c.map f).map entryPayload = c.map entryPayload := by
  induction c with
  | nil => rfl
  | cons e t ih => simp [hf, ih]

theorem replenishParent_payload (c : List CorpusEntry) (p now : Nat) :
    (replenishParent c p now).map entryPayload = c.map entryPayload := by
  unfold replenishParent
  apply entryPayload_map_update
  intro e
  split <;> rfl

theorem decayParent_payload (c : List CorpusEntry) (p : Nat) :
    (decayParent c p).map entryPayload = c.map entryPayload := by
  unfold decayParent
  apply entryPayload_map_update
  intro e
  split <;> rfl

theorem recordCrash_meta (s : EngineState) (cls : CrashClass) (bs : List Nat)
    (txt : String) (now : Nat) :
    (recordCrash s cls bs txt now).meta = s.meta := by
  unfold recordCrash
  split <;> rfl

theorem recordCrash_corpus (s : EngineState) (cls : CrashClass)
    (bs : List Nat) (txt : String) (now : Nat) :
    (recordCrash s cls bs txt now).corpus = s.corpus := by
  unfold recordCrash
  split <;> rfl

theorem recordCrash_frontier (s : EngineState) (cls : CrashClass)
    (bs : List Nat) (txt : String) (now : Nat) :
    (recordCrash s cls bs txt now).frontier = s.frontier := by
  unfold recordCrash
  split <;> rfl

theorem recordCrash_crashers (s : EngineState) (cls : CrashClass)
    (bs : List Nat) (txt : String) (now : Nat) :
    ∃ t, (recordCrash s cls bs txt now).crashers = s.crashers ++ t := by
  unfold recordCrash
  split
  · exact ⟨[], (List.append_nil s.crashers).symm⟩
  · exact ⟨[⟨s.nextId, bs, cls, now, txt⟩], rfl⟩

theorem stepResult_meta (s : EngineState) (p : Nat) (r : Result) (now : Nat) :
    (stepResult s p r now).meta = s.meta := by
  rcases r with ⟨bs, v, snap, tm, ct⟩
  cases v
  case clean =>
    unfold stepResult
    dsimp only
    split <;> rfl
  case crashed =>
    unfold stepResult
    dsimp only
    rw [recordCrash_meta]
  case hung =>
    unfold stepResult
    dsimp only
    rw [recordCrash_meta]
  case resourceExceeded =>
    unfold stepResult
    dsimp only
    rw [recordCrash_meta]

theorem stepResult_corpus_payload (s : EngineState) (p : Nat) (r : Result)
    (now : Nat) :
    ∃ t, (stepResult s p r now).corpus.map entryPayload =
      s.corpus.map entryPayload ++ t := by
  rcases r with ⟨bs, v, snap, tm, ct⟩
  cases v
  case clean =>
    unfold stepResult
    dsimp only
    split
    · refine ⟨[entryPayload ⟨s.nextId, bs,
        snapshotToSignature snap, parentDepth s.corpus p + 1,
        initialEnergy bs.length, now⟩], ?_⟩
      rw [List.map_append, replenishParent_payload]
      rfl
    · exact ⟨[], by rw [decayParent_payload, List.append_nil]⟩
  case crashed =>
    unfold stepResult
    dsimp only
    refine ⟨[], ?_⟩
    rw [recordCrash_corpus]
    dsimp only
    rw [decayParent_payload, List.append_nil]
  case hung =>
    unfold stepResult
    dsimp only
    refine ⟨[], ?_⟩
    rw [recordCrash_corpus]
    dsimp only
    rw [decayParent_payload, List.append_nil]
  case resourceExceeded =>
    unfold stepResult
    dsimp only
    refine ⟨[], ?_⟩
    rw [recordCrash_corpus]
    dsimp only
    rw [decayParent_payload, List.append_nil]

theorem stepResult_crashers (s : EngineState) (p : Nat) (r : Result)
    (now : Nat) :
    ∃ t, (stepResult s p r now).crashers = s.crashers ++ t := by
  rcases r with ⟨bs, v, snap, tm, ct⟩
  cases v
  case clean =>
    unfold stepResult
    dsimp only
    split
    · exact ⟨[], (List.append_nil s.crashers).symm⟩
    · exact ⟨[], (List.append_nil s.crashers).symm⟩
  case crashed =>
    unfold stepResult
    dsimp only
    exact recordCrash_crashers ..
  case hung =>
    unfold stepResult
    dsimp only
    exact recordCrash_crashers ..
  case resourceExceeded =>
    unfold stepResult
    dsimp only
    exact recordCrash_crashers ..

theorem stepResult_frontier (s : EngineState) (p : Nat) (r : Result)
    (now : Nat) :
    ∃ t, (stepResult s p r now).frontier = s.frontier ++ t := by
  rcases r with ⟨bs, v, snap, tm, ct⟩
  cases v
  case clean =>
    unfold stepResult
    dsimp only
    split
    · exact ⟨(snapshotToSignature snap).filter
        (fun q => !(s.frontier.contains q)), rfl⟩
    · exact ⟨[], (List.append_nil s.frontier).symm⟩
  case crashed =>
    unfold stepResult
    dsimp only
    refine ⟨(snapshotToSignature snap).filter
      (fun q => !(s.frontier.contains q)), ?_⟩
    rw [recordCrash_frontier]
    rfl
  case hung =>
    unfold stepResult
    dsimp only
    refine ⟨[], ?_⟩
    rw [recordCrash_frontier]
    exact (List.append_nil s.frontier).symm
  case resourceExceeded =>
    unfold stepResult
    dsimp only
    refine ⟨[], ?_⟩
    rw [recordCrash_frontier]
    exact (List.append_nil s.frontier).symm

theorem runMeta (s : EngineState) (work : List (Nat × Result × Nat)) :
    (run s work).meta = s.meta := by
  induction work generalizing s with
  | nil => rfl
  | cons w ws ih =>
    show (run (stepResult s w.1 w.2.1 w.2.2) ws).meta = s.meta
    rw [ih, stepResult_meta]

theorem run_corpus_payload (s : EngineState)
    (work : List (Nat × Result × Nat)) :
    ∃ t, (run s work).corpus.map entryPayload =
      s.corpus.map entryPayload ++ t := by
  induction work generalizing s with
  | nil => exact ⟨[], (List.append_nil _).symm⟩
  | cons w ws ih =>
    obtain ⟨t1, h1⟩ := stepResult_corpus_payload s w.1 w.2.1 w.2.2
    obtain ⟨t2, h2⟩ := ih (stepResult s w.1 w.2.1 w.2.2)
    refine ⟨t1 ++ t2, ?_⟩
    show (run (stepResult s w.1 w.2.1 w.2.2) ws).corpus.map entryPayload = _
    rw [h2, h1, List.append_assoc]

theorem run_crashers (s : EngineState) (work : List (Nat × Result × Nat)) :
    ∃ t, (run s work).crashers = s.crashers ++ t := by
  induction work generalizing s with
  | nil => exact ⟨[], (List.append_nil _).symm⟩
  | cons w ws ih =>
    obtain ⟨t1, h1⟩ := stepResult_crashers s w.1 w.2.1 w.2.2
    obtain ⟨t2, h2⟩ := ih (stepResult s w.1 w.2.1 w.2.2)
    refine ⟨t1 ++ t2, ?_⟩
    show (run (stepResult s w.1 w.2.1 w.2.2) ws).crashers = _
    rw [h2, h1, List.append_assoc]

theorem run_frontier (s : EngineState) (work : List (Nat × Result × Nat)) :
    ∃ t, (run s work).frontier = s.frontier ++ t := by
  induction work generalizing s with
  | nil => exact ⟨[], (List.append_nil _).symm⟩
  | cons w ws ih =>
    obtain ⟨t1, h1⟩ := stepResult_frontier s w.1 w.2.1 w.2.2
    obtain ⟨t2, h2⟩ := ih (stepResult s w.1 w.2.1 w.2.2)
    refine ⟨t1 ++ t2, ?_⟩
    show (run (stepResult s w.1 w.2.1 w.2.2) ws).frontier = _
    rw [h2, h1, List.append_assoc]

/-- A concrete accepted metadata bundle: one block with id 0, no sonar. -/
def sampleMeta : MetaData :=
  ⟨[], [⟨0, "a.go", 1, 1, 2, 2, 1⟩], []⟩

/-! Claim theorems. -/

/-- C1: the metadata bundle consumed at process start is exactly the
aggregate of three sequences — literals, ordinary coverage blocks, and
sonar coverage blocks: `MetaData` is in bijection with the triple of its
three list fields, and the two coverage-block pools are separate fields,
each recovered independently from a constructed bundle. -/
theorem metadata_exactly_three_pools :
    (∀ m : MetaData, MetaData.ofTriple m.toTriple = m) ∧
    (∀ t : List Literal × List CoverBlock × List CoverBlock,
      (MetaData.ofTriple t).toTriple = t) ∧
    (∀ ls bs ss, (MetaData.mk ls bs ss).Literals = ls ∧
      (MetaData.mk ls bs ss).Blocks = bs ∧ (MetaData.mk ls bs ss).Sonar = ss) :=
  ⟨fun _ => rfl, fun _ => rfl, fun _ _ _ => ⟨rfl, rfl, rfl⟩⟩

/-- C2: a `CoverBlock` consists exactly of id, file, start line/col, end
line/col and statement count — it is in bijection with that 7-tuple of
fields — and no run of the engine modifies the loaded coverage blocks:
after any sequence of result applications both block pools of the metadata
store are unchanged. -/
theorem coverblock_fields_and_immutability :
    (∀ b : CoverBlock, CoverBlock.ofTuple b.toTuple = b) ∧
    (∀ t : Int × String × Int × Int × Int × Int × Int,
      (CoverBlock.ofTuple t).toTuple = t) ∧
    (∀ (s : EngineState) (work : List (Nat × Result × Nat)),
      (run s work).meta.Blocks = s.meta.Blocks ∧
      (run s work).meta.Sonar = s.meta.Sonar) := by
  refine ⟨fun _ => rfl, fun _ => rfl, fun s work => ?_⟩
  constructor <;> rw [runMeta]

/-- C3: a `Literal` consists exactly of a constant value held as bytes
(`Val`) and a boolean `IsStr` flag — it is in bijection with that pair —
and no run of the engine modifies the loaded literal dictionary. -/
theorem literal_fields_and_immutability :
    (∀ l : Literal, Literal.ofPair l.toPair = l) ∧
    (∀ p : String × Bool, (Literal.ofPair p).toPair = p) ∧
    (∀ (s : EngineState) (work : List (Nat × Result × Nat)),
      (run s work).meta.Literals = s.meta.Literals) := by
  refine ⟨fun _ => rfl, fun _ => rfl, fun s work => ?_⟩
  rw [runMeta]

/-- C4: in every accepted metadata bundle the block ids are dense integers —
each ordinary block id is a valid direct index into a hit-count array of
length `blockCount`, each sonar block id into one of length
`sonarBlockCount` — and since a run never changes the metadata store the
property holds for the whole run. -/
theorem dense_ids_are_valid_indices (m : MetaData)
    (hacc : acceptMeta m = true) :
    (∀ b ∈ m.Blocks, 0 ≤ b.ID ∧ b.ID < (m.blockCount : Int)) ∧
    (∀ b ∈ m.Sonar, 0 ≤ b.ID ∧ b.ID < (m.sonarBlockCount : Int)) ∧
    (∀ (s : EngineState) (work : List (Nat × Result × Nat)),
      s.meta = m → acceptMeta (run s work).meta = true) := by
  have h := hacc
  unfold acceptMeta denseIDs at h
  simp only [Bool.and_eq_true, List.all_eq_true, decide_eq_true_eq] at h
  obtain ⟨h1, h2⟩ := h
  refine ⟨?_, ?_, ?_⟩
  · intro b hb
    exact h1 b hb
  · intro b hb
    exact h2 b hb
  · intro s work hs
    rw [runMeta, hs]
    exact hacc

/-- Witness for C4 at a concrete accepted bundle. -/
theorem dense_ids_are_valid_indices_witness :
    acceptMeta sampleMeta = true ∧
    ((∀ b ∈ sampleMeta.Blocks,
        0 ≤ b.ID ∧ b.ID < (sampleMeta.blockCount : Int)) ∧
     (∀ b ∈ sampleMeta.Sonar,
        0 ≤ b.ID ∧ b.ID < (sampleMeta.sonarBlockCount : Int)) ∧
     (∀ (s : EngineState) (work : List (Nat × Result × Nat)),
        s.meta = sampleMeta → acceptMeta (run s work).meta = true)) :=
  ⟨by decide, dense_ids_are_valid_indices sampleMeta (by decide)⟩

/-- C5: the metadata store exposes the pure lookups `literals`,
`blockCount` and `sonarBlockCount` — each a function of the bundle alone,
with the stated defining equations — and no operation of a run mutates the
store: after any sequence of result applications the whole metadata bundle,
hence its literals, blocks and sonar sequences, is unchanged. -/
theorem metadata_store_pure_lookups_and_frame :
    (∀ m : MetaData, m.literals = m.Literals ∧
      m.blockCount = m.Blocks.length ∧
      m.sonarBlockCount = m.Sonar.length) ∧
    (∀ (s : EngineState) (work : List (Nat × Result × Nat)),
      (run s work).meta = s.meta) :=
  ⟨fun _ => ⟨rfl, rfl, rfl⟩, fun s work => runMeta s work⟩

/-- C6: when the metadata bundle is absent or malformed at startup the
engine still starts, with the empty literal dictionary (`some emptyMeta`,
whose dictionary is `[]`); a build-identifier mismatch instead is the fatal
startup case (`none`). -/
theorem metadata_failure_degrades_except_buildid (e bid : String)
    (m : MetaData) (hne : bid ≠ e) :
    loadMeta e MetaBundle.absent = some emptyMeta ∧
    loadMeta e MetaBundle.malformed = some emptyMeta ∧
    emptyMeta.literals = [] ∧
    loadMeta e (MetaBundle.ok bid m) = none := by
  refine ⟨rfl, rfl, rfl, ?_⟩
  unfold loadMeta
  simp [hne]

/-- Witness for C6 at concrete build identifiers. -/
theorem metadata_failure_degrades_except_buildid_witness :
    "b" ≠ "a" ∧
    (loadMeta "a" MetaBundle.absent = some emptyMeta ∧
     loadMeta "a" MetaBundle.malformed = some emptyMeta ∧
     emptyMeta.literals = [] ∧
     loadMeta "a" (MetaBundle.ok "b" emptyMeta) = none) :=
  ⟨by decide, metadata_failure_degrades_except_buildid "a" "b" emptyMeta
    (by decide)⟩

/-- C7: over any run the corpus and the crash set never shrink — their
lengths are monotone, the identity payload (id, bytes, signature, depth) of
every existing corpus entry persists in place and new material is only
appended, the crasher list is extended only by appending — and once the
coverage frontier contains a signature pair it contains it for the
remainder of the run. -/
theorem corpus_and_crashers_append_only (s : EngineState)
    (work : List (Nat × Result × Nat)) :
    s.corpus.length ≤ (run s work).corpus.length ∧
    s.crashers.length ≤ (run s work).crashers.length ∧
    (∃ t, (run s work).corpus.map entryPayload =
      s.corpus.map entryPayload ++ t) ∧
    (∃ t, (run s work).crashers = s.crashers ++ t) ∧
    (∀ q ∈ s.frontier, q ∈ (run s work).frontier) := by
  obtain ⟨t1, h1⟩ := run_corpus_payload s work
  obtain ⟨t2, h2⟩ := run_crashers s work
  obtain ⟨t3, h3⟩ := run_frontier s work
  refine ⟨?_, ?_, ⟨t1, h1⟩, ⟨t2, h2⟩, ?_⟩
  · have hl := congrArg List.length h1
    simp only [List.length_map, List.length_append] at hl
    omega
  · have hl := congrArg List.length h2
    simp only [List.length_append] at hl
    omega
  · intro q hq
    rw [h3]
    exact List.mem_append_left t3 hq

/-- C8: the signature computation is a pure deterministic function of the
raw snapshot: evaluated inside any two process instances — any two engine
states, including any state reached later in a run — it returns the same
signature, namely `snapshotToSignature` of the snapshot alone. -/
theorem snapshot_signature_deterministic :
    (∀ (s1 s2 : EngineState) (raw : List Nat),
      signatureInProcess s1 raw = signatureInProcess s2 raw) ∧
    (∀ (s : EngineState) (work : List (Nat × Result × Nat)) (raw : List Nat),
      signatureInProcess (run s work) raw = signatureInProcess s raw) ∧
    (∀ (s : EngineState) (raw : List Nat),
      signatureInProcess s raw = snapshotToSignature raw) :=
  ⟨fun _ _ _ => rfl, fun _ _ _ => rfl, fun _ _ => rfl⟩

/-- C9: persisting one Crasher writes exactly three files that share one
base name: the raw input bytes under the bare base name, the quoted
rendering under the .quoted suffix, and the captured failure text under the
.output suffix; the three file names are pairwise distinct. -/
theorem crasher_writes_three_files (base : String) (c : Crasher) :
    (crasherFiles base c).length = 3 ∧
    (crasherFiles base c).map FileEntry.name =
      [base, base ++ ".quoted", base ++ ".output"] ∧
    (∀ f ∈ crasherFiles base c, ∃ suffix, f.name = base ++ suffix) ∧
    ((crasherFiles base c).map FileEntry.name).Nodup ∧
    (crasherFiles base c).map FileEntry.content =
      [bytesToString c.bytes, quoteBytes c.bytes, c.outputText] := by
  have hq : base ≠ base ++ ".quoted" := by
    intro h
    have hl := congrArg String.length h
    rw [String.length_append] at hl
    have h7 : (".quoted" : String).length = 7 := rfl
    omega
  have ho : base ≠ base ++ ".output" := by
    intro h
    have hl := congrArg String.length h
    rw [String.length_append] at hl
    have h7 : (".output" : String).length = 7 := rfl
    omega
  have hqo : base ++ ".quoted" ≠ base ++ ".output" := by
    intro h
    have hd := congrArg String.data h
    rw [String.data_append, String.data_append] at hd
    have := List.append_cancel_left hd
    simp at this
  refine ⟨rfl, rfl, ?_, ?_, rfl⟩
  · intro f hf
    simp only [crasherFiles, List.mem_cons, List.not_mem_nil, or_false]
      at hf
    rcases hf with h | h | h
    · exact ⟨"", by rw [h, String.append_empty]⟩
    · exact ⟨".quoted", by rw [h]⟩
    · exact ⟨".output", by rw [h]⟩
  · simp only [crasherFiles, List.map_cons, List.map_nil,
      List.nodup_cons, List.mem_cons, List.not_mem_nil, or_false,
      List.nodup_nil, and_true, not_or]
    exact ⟨⟨hq, ho⟩, hqo, not_false⟩

/-- C10: string and non-string dictionary constants share one
representation: the bytes of every constructed `Literal` live in the single
`Val` field whatever the `IsStr` flag is, the flag is recovered
independently, and the two fields reassemble the literal. -/
theorem literal_single_representation :
    (∀ (v : String) (b : Bool),
      (Literal.mk v b).Val = v ∧ (Literal.mk v b).IsStr = b) ∧
    (∀ v : String, (Literal.mk v true).Val = (Literal.mk v false).Val) ∧
    (∀ l : Literal, Literal.mk l.Val l.IsStr = l) :=
  ⟨fun _ _ => ⟨rfl, rfl⟩, fun _ => rfl, fun _ => rfl⟩

end GoFuzz
